import Mathlib

/-!
# Tzu Chi Global Disaster Assessment Tool — verification of the scoring core

Shallow embedding of the scoring/matching core of `app.py`:

* `SCORING_FRAMEWORK` — the fixed rubric (5 dimensions, 20 indicators with
  weights).  Rubric threshold text is irrelevant to the computations and is
  omitted.
* `match_score_key` — the three-tier fuzzy key matcher.
* the normalization loop of the `run_btn` handler (key matching + first
  digit-run score extraction, per-entry exceptions discarded).
* `calculate_final_metrics` — the weighted severity index, INFORM-equivalent
  figure and the A/B/C classification.

Python floats are modelled as exact rationals (`ℚ`); weights and thresholds
are short decimal literals.  The `round(_, 2)` applied by the source when
building its result dictionary is display-only (the category is computed from
the unrounded value), so the model exposes the full-precision
`final_severity_index` and `inform_score`.  String operations (`lower`,
`replace(".", "")`, `strip`, substring `in`, `re.search(r"\d+")`) are
modelled character-list-wise over ASCII.
-/

/-- ASCII lower-casing of a string (model of Python `str.lower` on the
ASCII identifiers the tool manipulates). -/
def lowerStr (s : String) : String := ⟨s.data.map Char.toLower⟩

/-- Removal of every `'.'` character (model of `str.replace(".", "")`). -/
def removeDots (s : String) : String := ⟨s.data.filter (fun c => !(c = '.'))⟩

/-- Whitespace trimming at both ends (model of Python `str.strip()`). -/
def stripStr (s : String) : String :=
  ⟨((s.data.dropWhile Char.isWhitespace).reverse.dropWhile Char.isWhitespace).reverse⟩

/-- Boolean prefix test on character lists. -/
def isPref : List Char → List Char → Bool
  | [], _ => true
  | _ :: _, [] => false
  | a :: as, b :: bs => (a == b) && isPref as bs

/-- `listContains needle hay` — `needle` occurs contiguously inside `hay`. -/
def listContains (needle : List Char) : List Char → Bool
  | [] => isPref needle []
  | c :: t => isPref needle (c :: t) || listContains needle t

/-- Model of the Python substring test `needle in hay`. -/
def strContains (hay needle : String) : Bool := listContains needle.data hay.data

/-- `ai_key_clean` of the source: lower-case, drop `'.'`, strip whitespace. -/
def cleanKey (s : String) : String := stripStr (removeDots (lowerStr s))

/-- Cleaning applied to a framework key inside the tier-2 loop:
`fk.lower().replace(".", "")` (note: no strip). -/
def cleanFk (s : String) : String := removeDots (lowerStr s)

/-- The fixed rubric of `app.py` (`SCORING_FRAMEWORK`): dimension name paired
with its indicators, each an identifier paired with its global weight.  The
rubric threshold strings carry no computational content and are omitted. -/
def SCORING_FRAMEWORK : List (String × List (String × ℚ)) :=
  [ ("1. IMPACT",
      [ ("1.1 People Affected", 0.375)
      , ("1.2 Fatalities", 0.375)
      , ("1.3 People in Need", 0.45)
      , ("1.4 Housing & Building Damage", 0.15)
      , ("1.5 Land Mass Affected", 0.15) ])
  , ("2. HUMANITARIAN CONDITIONS",
      [ ("2.1 Food Security (IPC Score)", 0.525)
      , ("2.2 WASH / NFI Needs", 0.30)
      , ("2.3 Displacement", 0.30)
      , ("2.4 Vulnerable Groups Proportion", 0.15)
      , ("2.5 Health System", 0.225) ])
  , ("3. COMPLEXITY",
      [ ("3.1 Access (roads/airports)", 0.15)
      , ("3.2 Security", 0.15)
      , ("3.3 Government Capacity", 0.10)
      , ("3.4 Communications", 0.10) ])
  , ("4. STAKEHOLDER ATTENTION",
      [ ("4.1 Media Intensity", 0.25)
      , ("4.2 UN/INGO Activation", 0.20)
      , ("4.3 Internal Interest (Tzu Chi)", 0.55) ])
  , ("5. FEASIBILITY & PARTNERSHIPS",
      [ ("5.1 Local Partnerships", 0.20)
      , ("5.2 Legal & Financing", 0.20)
      , ("5.3 Culture & Faith Alignment", 0.10) ]) ]

/-- All (indicator identifier, weight) pairs in rubric iteration order — the
flattening performed by the nested `for` loops of the source. -/
def allIndicators : List (String × ℚ) :=
  SCORING_FRAMEWORK.foldr (fun d acc => d.2 ++ acc) []

/-- `framework_keys` of the `run_btn` handler: every canonical indicator
identifier, in rubric iteration order. -/
def frameworkKeys : List String := allIndicators.map Prod.fst

/-- Tier-2 test of `match_score_key`:
`ai_key_clean in fk.lower().replace(".", "")`. -/
def tier2Hit (ai_key fk : String) : Bool :=
  strContains (cleanFk fk) (cleanKey ai_key)

/-- Tier-3 test of `match_score_key`: `ai_key.lower() in fk.lower()`. -/
def tier3Hit (ai_key fk : String) : Bool :=
  strContains (lowerStr fk) (lowerStr ai_key)

/-- `match_score_key(ai_key, framework_keys)`: exact match first, then the
tier-2 loop (cleaned key contained in cleaned framework key), then the tier-3
loop (lower-cased containment); `none` when every tier fails. -/
def match_score_key (ai_key : String) (keys : List String) : Option String :=
  if ai_key ∈ keys then some ai_key
  else
    match keys.find? (tier2Hit ai_key) with
    | some fk => some fk
    | none => keys.find? (tier3Hit ai_key)

/-- A score mapping: the `scores_dict` / `st.session_state.current_scores`
association from indicator identifiers to integer scores. -/
abbrev ScoreMapping := List (String × ℤ)

/-- `scores_dict.get(ind_name, 3)` — lookup with neutral default 3. -/
def getScore (m : ScoreMapping) (ind : String) : ℤ :=
  ((List.lookup ind m).getD 3)

/-- `total` accumulated by `calculate_final_metrics`:
`sum((score / 5.0) * weight)` over every indicator of every dimension. -/
def severityIndex (m : ScoreMapping) : ℚ :=
  (allIndicators.map (fun p => ((getScore m p.1 : ℚ) / 5) * p.2)).sum

/-- `inform_score = final_severity_index * 2.0`. -/
def informScore (m : ScoreMapping) : ℚ := severityIndex m * 2

/-- The classification branch of `calculate_final_metrics`:
category, label, action and color from the severity index. -/
def categoryBlock (x : ℚ) : String × String × String × String :=
  if 4 ≤ x then
    ("A", "MAJOR International",
     "IMMEDIATE MOBILISATION: Initiate assessment, stocktake inventory & emergency funds, contact international partners.",
     "#ff4b4b")
  else if 2.5 ≤ x then
    ("B", "Medium Scale",
     "WATCH LIST: Maintain contact with local partners, monitor developments for 72h.",
     "#ffa421")
  else
    ("C", "Minimal / Local",
     "MONITORING: No HQ deployment likely needed. Pray & monitor.",
     "#09ab3b")

/-- The category component of the classification branch. -/
def classifySeverity (x : ℚ) : String := (categoryBlock x).1

/-- The record returned by `calculate_final_metrics` (severity and INFORM
figure at full precision; the source rounds them to two decimals only when
building the display dictionary). -/
structure Metrics where
  severity : ℚ
  inform : ℚ
  category : String
  cat_label : String
  action : String
  color : String
  deriving Repr, DecidableEq

/-- `calculate_final_metrics(scores_dict)`. -/
def calculate_final_metrics (m : ScoreMapping) : Metrics :=
  let s := severityIndex m
  let c := categoryBlock s
  ⟨s, s * 2, c.1, c.2.1, c.2.2.1, c.2.2.2⟩

/-- The `"score"` field of a raw-scores entry: a Python int or an arbitrary
value rendered through `str(...)`. -/
inductive ScoreVal where
  | int (n : ℤ)
  | str (s : String)
  deriving Repr, DecidableEq

/-- `str(value)` for a score value (ints render as decimal, possibly with a
leading minus sign, exactly as Python prints them). -/
def pyStr : ScoreVal → String
  | .int n => toString n
  | .str s => s

/-- One value of the untrusted `raw_scores` mapping: a dict whose `"score"`
field may be absent (`.get("score", 3)` then yields the int 3), or a
malformed non-dict value, on which `.get` raises — the per-entry
`try/except` then discards the entry. -/
inductive RawEntry where
  | obj (score : Option ScoreVal)
  | malformed
  deriving Repr, DecidableEq

/-- Numeric value of an ASCII digit list, most significant first. -/
def digitsToNat (l : List Char) : Nat :=
  l.foldl (fun n c => n * 10 + (c.toNat - 48)) 0

/-- `int(re.search(r"\d+", s).group())`: the first maximal run of decimal
digits of `s`, or `none` when `s` has no digit (`re.search` returns `None`
and `.group()` raises). -/
def firstDigitRun (s : String) : Option Nat :=
  match s.data.dropWhile (fun c => !c.isDigit) with
  | [] => none
  | c :: rest => some (digitsToNat (c :: rest.takeWhile Char.isDigit))

/-- Score extraction for one matched entry:
`str(ai_val_obj.get("score", 3))` then the first digit run, every raising
path collapsed to `none` (the `except: pass`).  Note the source applies no
`[1,5]` range check on the extracted integer. -/
def extractEntry : RawEntry → Option ℤ
  | .malformed => none
  | .obj os => (firstDigitRun (pyStr (os.getD (.int 3)))).map Int.ofNat

/-- Python-dict style update of an association list: overwrite in place when
the key is present, append otherwise. -/
def setKey : List (String × ℤ) → String → ℤ → List (String × ℤ)
  | [], k, v => [(k, v)]
  | (k', v') :: t, k, v =>
      if k' = k then (k, v) :: t else (k', v') :: setKey t k v

/-- One iteration of the normalization loop: resolve the raw key, extract a
score, store it under the matched canonical key; unmatched keys and failed
extractions leave the state unchanged. -/
def stepEntry (m : List (String × ℤ)) : String × RawEntry → List (String × ℤ)
  | (k, e) =>
    match match_score_key k frameworkKeys with
    | none => m
    | some mk =>
        match extractEntry e with
        | none => m
        | some v => setKey m mk v

/-- The whole normalization loop of the `run_btn` handler, run from an empty
`current_scores` over the raw entries in iteration order. -/
def normalizeLoop (raw : List (String × RawEntry)) : List (String × ℤ) :=
  raw.foldl stepEntry []

/-- The effective complete score mapping the Scoring Engine consumes: one
entry per canonical indicator, the loop's value when present, else the
neutral default 3 (`scores_dict.get(ind_name, 3)`). -/
def normalizedScores (raw : List (String × RawEntry)) : ScoreMapping :=
  frameworkKeys.map (fun n => (n, ((List.lookup n (normalizeLoop raw)).getD 3)))

/-- Sum of the indicator weights of one dimension's indicator list. -/
def dimWeightSum (inds : List (String × ℚ)) : ℚ := (inds.map Prod.snd).sum

/-- Spec-side quantity: `raw_weighted_sum`, the sum over all indicators of
`score × weight` (to be compared with the source's `(score / 5) * weight`
accumulation). -/
def rawWeightedSum (m : ScoreMapping) : ℚ :=
  (allIndicators.map (fun p => (getScore m p.1 : ℚ) * p.2)).sum

/-- A mapping is valid when every canonical indicator's (defaulted) score
lies in `[1,5]`. -/
def validScores (m : ScoreMapping) : Prop :=
  ∀ n ∈ frameworkKeys, 1 ≤ getScore m n ∧ getScore m n ≤ 5

instance : DecidablePred validScores := fun m =>
  inferInstanceAs
    (Decidable (∀ n ∈ frameworkKeys, 1 ≤ getScore m n ∧ getScore m n ≤ 5))

/-- `x` is the first element of `l` satisfying `p`. -/
def firstSuch (p : String → Bool) (l : List String) (x : String) : Prop :=
  ∃ pre post, l = pre ++ x :: post ∧ p x = true ∧ ∀ y ∈ pre, p y = false

/-- A sample untrusted raw-scores payload: one fuzzy-matched entry with a
noisy string score, one unmatchable key, one malformed (non-dict) value. -/
def rawSample : List (String × RawEntry) :=
  [ ("fatalities", .obj (some (.str "4 (severe)")))
  , ("zzz bogus", .obj (some (.int 2)))
  , ("1.3 People in Need", .malformed) ]

/-! ## Helper lemmas -/

/-- The flattened indicator list, written out. -/
lemma allIndicators_eq :
    allIndicators =
      [ ("1.1 People Affected", 0.375)
      , ("1.2 Fatalities", 0.375)
      , ("1.3 People in Need", 0.45)
      , ("1.4 Housing & Building Damage", 0.15)
      , ("1.5 Land Mass Affected", 0.15)
      , ("2.1 Food Security (IPC Score)", 0.525)
      , ("2.2 WASH / NFI Needs", 0.30)
      , ("2.3 Displacement", 0.30)
      , ("2.4 Vulnerable Groups Proportion", 0.15)
      , ("2.5 Health System", 0.225)
      , ("3.1 Access (roads/airports)", 0.15)
      , ("3.2 Security", 0.15)
      , ("3.3 Government Capacity", 0.10)
      , ("3.4 Communications", 0.10)
      , ("4.1 Media Intensity", 0.25)
      , ("4.2 UN/INGO Activation", 0.20)
      , ("4.3 Internal Interest (Tzu Chi)", 0.55)
      , ("5.1 Local Partnerships", 0.20)
      , ("5.2 Legal & Financing", 0.20)
      , ("5.3 Culture & Faith Alignment", 0.10) ] := rfl

lemma sum_map_div_five (l : List (String × ℚ)) (f : String × ℚ → ℚ) :
    (l.map (fun x => f x / 5)).sum = (l.map f).sum / 5 := by
  induction l with
  | nil => simp
  | cons a t ih => simp [ih, add_div]

lemma weights_nonneg : ∀ p ∈ allIndicators, (0 : ℚ) ≤ p.2 := by
  intro p hp
  rw [allIndicators_eq] at hp
  fin_cases hp <;> norm_num

lemma weightSum_eq_five : (allIndicators.map (fun p => p.2)).sum = 5 := by
  rw [allIndicators_eq]; norm_num

lemma fifth_weightSum_eq_one :
    (allIndicators.map (fun p => (1 : ℚ) / 5 * p.2)).sum = 1 := by
  rw [allIndicators_eq]; norm_num

lemma severity_empty : severityIndex [] = 3 := by
  simp [severityIndex, allIndicators_eq, getScore, List.lookup]
  norm_num

lemma mem_frameworkKeys_of_mem {p : String × ℚ} (hp : p ∈ allIndicators) :
    p.1 ∈ frameworkKeys :=
  List.mem_map.mpr ⟨p, hp, rfl⟩

/-! ## Claim theorems -/

/-- C1: for every score mapping with each canonical indicator's (defaulted)
score an integer in [1,5], the severity index computed by
`calculate_final_metrics` equals the sum over all indicators of all
dimensions of score × weight, divided by the fixed dimension count 5. -/
theorem severity_is_weighted_sum_div_five :
    SCORING_FRAMEWORK.length = 5 ∧
    ∀ m : ScoreMapping, validScores m →
      severityIndex m = rawWeightedSum m / 5 := by
  refine ⟨rfl, fun m _ => ?_⟩
  rw [severityIndex, rawWeightedSum]
  have h : (fun p : String × ℚ => ((getScore m p.1 : ℚ) / 5) * p.2)
      = fun p : String × ℚ => ((getScore m p.1 : ℚ) * p.2) / 5 :=
    funext fun p => by ring
  rw [h]
  exact sum_map_div_five _ _

/-- Witness for C1 at the concrete mapping scoring Fatalities 5. -/
theorem severity_is_weighted_sum_div_five_witness :
    severityIndex [("1.2 Fatalities", 5)]
      = rawWeightedSum [("1.2 Fatalities", 5)] / 5 :=
  severity_is_weighted_sum_div_five.2 [("1.2 Fatalities", 5)] (by decide)

/-- C2: the severity index is classified by inclusive lower bounds evaluated
top-down, first match wins: `≥ 4.0` gives A, `2.5 ≤ · < 4.0` gives B,
`< 2.5` gives C; at the boundaries, 4.0 is A, 3.999999 is B, 2.5 is B and
2.499999 is C; and `calculate_final_metrics` classifies exactly the severity
index it computed. -/
theorem classification_thresholds :
    (∀ x : ℚ, 4 ≤ x → classifySeverity x = "A") ∧
    (∀ x : ℚ, 2.5 ≤ x → x < 4 → classifySeverity x = "B") ∧
    (∀ x : ℚ, x < 2.5 → classifySeverity x = "C") ∧
    classifySeverity 4 = "A" ∧
    classifySeverity 3.999999 = "B" ∧
    classifySeverity 2.5 = "B" ∧
    classifySeverity 2.499999 = "C" ∧
    ∀ m : ScoreMapping,
      (calculate_final_metrics m).category
        = classifySeverity (severityIndex m) := by
  refine ⟨?_, ?_, ?_, ?_, ?_, ?_, ?_, fun m => rfl⟩
  · intro x hx
    simp [classifySeverity, categoryBlock, hx]
  · intro x h1 h2
    have hn : ¬ (4 : ℚ) ≤ x := by linarith
    simp [classifySeverity, categoryBlock, hn, h1]
  · intro x h
    have hn4 : ¬ (4 : ℚ) ≤ x := by linarith
    have hn25 : ¬ (2.5 : ℚ) ≤ x := not_le.mpr h
    simp [classifySeverity, categoryBlock, hn4, hn25]
  · norm_num [classifySeverity, categoryBlock]
  · norm_num [classifySeverity, categoryBlock]
  · norm_num [classifySeverity, categoryBlock]
  · norm_num [classifySeverity, categoryBlock]

/-- Witness for C2 at 4.2, 3 and 2. -/
theorem classification_thresholds_witness :
    classifySeverity 4.2 = "A" ∧ classifySeverity 3 = "B"
      ∧ classifySeverity 2 = "C" :=
  ⟨classification_thresholds.1 4.2 (by norm_num),
   classification_thresholds.2.1 3 (by norm_num) (by norm_num),
   classification_thresholds.2.2.1 2 (by norm_num)⟩

/-- C4 counterexample: the weights of dimension "1. IMPACT" sum to 1.5, so
not every dimension's weights sum to 1.0 within tolerance 1e-6. -/
theorem impact_weights_sum_violates_unit :
    ¬ (∀ d ∈ SCORING_FRAMEWORK, |dimWeightSum d.2 - 1| ≤ 1 / 1000000) := by
  intro h
  have hmem : ("1. IMPACT",
      [ ("1.1 People Affected", (0.375 : ℚ))
      , ("1.2 Fatalities", 0.375)
      , ("1.3 People in Need", 0.45)
      , ("1.4 Housing & Building Damage", 0.15)
      , ("1.5 Land Mass Affected", 0.15) ]) ∈ SCORING_FRAMEWORK := by
    simp [SCORING_FRAMEWORK]
  have h1 := h _ hmem
  have h2 : dimWeightSum
      [ ("1.1 People Affected", (0.375 : ℚ))
      , ("1.2 Fatalities", 0.375)
      , ("1.3 People in Need", 0.45)
      , ("1.4 Housing & Building Damage", 0.15)
      , ("1.5 Land Mass Affected", 0.15) ] = 3 / 2 := by
    norm_num [dimWeightSum]
  rw [h2, abs_le] at h1
  have h3 := h1.2
  norm_num at h3

/-- C4 (amended): the per-dimension weight sums are 1.5, 1.5, 0.5, 1.0 and
0.5 — only dimension 4 sums to 1.0 — and the global weights over all 20
indicators sum to exactly 5. -/
theorem dimension_weight_sums :
    SCORING_FRAMEWORK.map (fun d => dimWeightSum d.2)
      = [3 / 2, 3 / 2, 1 / 2, 1, 1 / 2] ∧
    dimWeightSum allIndicators = 5 := by
  constructor
  · norm_num [SCORING_FRAMEWORK, dimWeightSum]
  · rw [allIndicators_eq]; norm_num [dimWeightSum]

/-- C6: on a valid score mapping (every canonical indicator's defaulted score
in [1,5]) the severity index lies in [1,5]; the INFORM equivalent equals
severity × 2 and lies in [2,10]. -/
theorem severity_range_bounds :
    ∀ m : ScoreMapping, validScores m →
      1 ≤ severityIndex m ∧ severityIndex m ≤ 5 ∧
      informScore m = severityIndex m * 2 ∧
      2 ≤ informScore m ∧ informScore m ≤ 10 := by
  intro m hm
  have hlo : (1 : ℚ) ≤ severityIndex m := by
    rw [← fifth_weightSum_eq_one, severityIndex]
    apply List.sum_le_sum
    intro p hp
    have hw := weights_nonneg p hp
    have hs : 1 ≤ getScore m p.1 := (hm p.1 (mem_frameworkKeys_of_mem hp)).1
    have hs' : (1 : ℚ) ≤ (getScore m p.1 : ℚ) := by exact_mod_cast hs
    nlinarith [mul_nonneg (sub_nonneg.mpr hs') hw]
  have hhi : severityIndex m ≤ 5 := by
    rw [← weightSum_eq_five, severityIndex]
    apply List.sum_le_sum
    intro p hp
    have hw := weights_nonneg p hp
    have hs : getScore m p.1 ≤ 5 := (hm p.1 (mem_frameworkKeys_of_mem hp)).2
    have hs' : (getScore m p.1 : ℚ) ≤ 5 := by exact_mod_cast hs
    nlinarith [mul_nonneg (sub_nonneg.mpr hs') hw]
  have hinf : informScore m = severityIndex m * 2 := rfl
  refine ⟨hlo, hhi, hinf, ?_, ?_⟩
  · rw [hinf]; linarith
  · rw [hinf]; linarith

/-- Witness for C6 at the empty mapping (every indicator defaults to 3). -/
theorem severity_range_bounds_witness :
    1 ≤ severityIndex [] ∧ severityIndex [] ≤ 5 ∧
    informScore [] = severityIndex [] * 2 ∧
    2 ≤ informScore [] ∧ informScore [] ≤ 10 :=
  severity_range_bounds [] (by decide)

/-- C8: every indicator missing from the mapping defaults to 3; on the empty
mapping every score is 3, the severity index is 3.0 and the category is B. -/
theorem empty_mapping_defaults :
    (∀ n : String, getScore [] n = 3) ∧
    severityIndex [] = 3 ∧
    (calculate_final_metrics []).category = "B" := by
  refine ⟨fun n => rfl, severity_empty, ?_⟩
  have h : (calculate_final_metrics []).category
      = classifySeverity (severityIndex []) := rfl
  rw [h, severity_empty]
  norm_num [classifySeverity, categoryBlock]

/-- C9: raising exactly one indicator's score (all others equal) cannot lower
the severity index — every weight is non-negative. -/
theorem severity_monotone :
    ∀ (A B : ScoreMapping) (i : String),
      (∀ j ∈ frameworkKeys, j ≠ i → getScore A j = getScore B j) →
      getScore A i < getScore B i →
      severityIndex A ≤ severityIndex B := by
  intro A B i hagree hlt
  rw [severityIndex, severityIndex]
  apply List.sum_le_sum
  intro p hp
  have hw := weights_nonneg p hp
  by_cases hpi : p.1 = i
  · have hAB : (getScore A p.1 : ℚ) ≤ (getScore B p.1 : ℚ) := by
      rw [hpi]; exact_mod_cast le_of_lt hlt
    nlinarith [mul_nonneg (sub_nonneg.mpr hAB) hw]
  · rw [hagree p.1 (mem_frameworkKeys_of_mem hp) hpi]

/-- Witness for C9: raising Fatalities from 2 to 4. -/
theorem severity_monotone_witness :
    severityIndex [("1.2 Fatalities", 2)]
      ≤ severityIndex [("1.2 Fatalities", 4)] :=
  severity_monotone [("1.2 Fatalities", 2)] [("1.2 Fatalities", 4)]
    "1.2 Fatalities" (by decide) (by decide)

/-! ## Substring machinery -/

lemma isPref_iff : ∀ (n h : List Char), isPref n h = true ↔ n <+: h
  | [], h => by simp [isPref]
  | a :: as, [] => by simp [isPref]
  | a :: as, b :: bs => by
    rw [show isPref (a :: as) (b :: bs) = ((a == b) && isPref as bs) from rfl,
        Bool.and_eq_true, beq_iff_eq, isPref_iff as bs, List.cons_prefix_cons]

lemma listContains_iff : ∀ (n h : List Char), listContains n h = true ↔ n <:+: h
  | n, [] => by
    rw [show listContains n [] = isPref n [] from rfl, isPref_iff]
    simp
  | n, c :: t => by
    rw [show listContains n (c :: t) = (isPref n (c :: t) || listContains n t) from rfl,
        Bool.or_eq_true, isPref_iff, listContains_iff n t, List.infix_cons_iff]

lemma infix_trans {a b c : List Char} (h1 : a <:+: b) (h2 : b <:+: c) :
    a <:+: c := by
  obtain ⟨s1, t1, rfl⟩ := h1
  obtain ⟨s2, t2, rfl⟩ := h2
  exact ⟨s2 ++ s1, t1 ++ t2, by simp⟩

lemma infix_of_prefix_suffix {a b c : List Char} (h1 : a <+: b) (h2 : b <:+ c) :
    a <:+: c := by
  obtain ⟨t, rfl⟩ := h1
  obtain ⟨s, rfl⟩ := h2
  exact ⟨s, t, by simp⟩

lemma rev_suffix_to_pref {X B : List Char} (h : X <:+ B.reverse) :
    X.reverse <+: B := by
  obtain ⟨s, hs⟩ := h
  refine ⟨s.reverse, ?_⟩
  have h2 := congrArg List.reverse hs
  simpa [List.reverse_append] using h2

lemma data_removeDots (s : String) :
    (removeDots s).data = s.data.filter (fun c => !(c = '.')) := rfl

lemma data_stripStr (s : String) :
    (stripStr s).data
      = ((s.data.dropWhile Char.isWhitespace).reverse.dropWhile
          Char.isWhitespace).reverse := rfl

lemma stripStr_substr (s : String) : (stripStr s).data <:+: s.data := by
  rw [data_stripStr]
  have hB : s.data.dropWhile Char.isWhitespace <:+ s.data :=
    List.dropWhile_suffix _
  have hC : (s.data.dropWhile Char.isWhitespace).reverse.dropWhile
      Char.isWhitespace <:+ (s.data.dropWhile Char.isWhitespace).reverse :=
    List.dropWhile_suffix _
  exact infix_of_prefix_suffix (rev_suffix_to_pref hC) hB

/-! ## First-match characterization of `find?` -/

lemma find?_append_first {p : String → Bool} (pre : List String) (x : String)
    (post : List String) (hx : p x = true) (hpre : ∀ y ∈ pre, p y = false) :
    (pre ++ x :: post).find? p = some x := by
  induction pre with
  | nil => simpa using List.find?_cons_of_pos post hx
  | cons y t ih =>
    have hy : p y = false := hpre y (List.mem_cons_self y t)
    rw [List.cons_append, List.find?_cons_of_neg _ (by simp [hy])]
    exact ih (fun z hz => hpre z (List.mem_cons_of_mem y hz))

lemma find?_of_firstSuch {p : String → Bool} {l : List String} {x : String}
    (h : firstSuch p l x) : l.find? p = some x := by
  obtain ⟨pre, post, rfl, hx, hpre⟩ := h
  exact find?_append_first pre x post hx hpre

/-! ## Normalization-loop provenance -/

lemma mem_setKey : ∀ (m : List (String × ℤ)) (k : String) (v : ℤ)
    (p : String × ℤ), p ∈ setKey m k v → p ∈ m ∨ p = (k, v)
  | [], k, v, p, h => by
    rw [show setKey [] k v = [(k, v)] from rfl] at h
    simp at h
    exact Or.inr h
  | (k', v') :: tl, k, v, p, h => by
    rw [show setKey ((k', v') :: tl) k v
          = if k' = k then (k, v) :: tl else (k', v') :: setKey tl k v
        from rfl] at h
    by_cases hk : k' = k
    · rw [if_pos hk] at h
      rcases List.mem_cons.mp h with h1 | h1
      · exact Or.inr h1
      · exact Or.inl (List.mem_cons_of_mem _ h1)
    · rw [if_neg hk] at h
      rcases List.mem_cons.mp h with h1 | h1
      · subst h1; exact Or.inl (List.mem_cons_self _ _)
      · rcases mem_setKey tl k v p h1 with h2 | h2
        · exact Or.inl (List.mem_cons_of_mem _ h2)
        · exact Or.inr h2

lemma loop_mem : ∀ (raw : List (String × RawEntry)) (acc : List (String × ℤ))
    (p : String × ℤ), p ∈ raw.foldl stepEntry acc →
    p ∈ acc ∨ ∃ k e, (k, e) ∈ raw ∧
      match_score_key k frameworkKeys = some p.1 ∧ extractEntry e = some p.2
  | [], _, _, h => Or.inl h
  | (k0, e0) :: tl, acc, p, h => by
    rw [List.foldl_cons] at h
    rcases loop_mem tl (stepEntry acc (k0, e0)) p h with h1 | ⟨k, e, hke, hmk, hex⟩
    · revert h1
      show p ∈ (match match_score_key k0 frameworkKeys with
          | none => acc
          | some mk =>
              match extractEntry e0 with
              | none => acc
              | some v => setKey acc mk v) → _
      cases hmk0 : match_score_key k0 frameworkKeys with
      | none => exact fun h1 => Or.inl h1
      | some mk =>
        cases hex0 : extractEntry e0 with
        | none => exact fun h1 => Or.inl h1
        | some v =>
          intro h1
          rcases mem_setKey acc mk v p h1 with h2 | h2
          · exact Or.inl h2
          · subst h2
            exact Or.inr ⟨k0, e0, List.mem_cons_self _ _, hmk0, hex0⟩
    · exact Or.inr ⟨k, e, List.mem_cons_of_mem _ hke, hmk, hex⟩

lemma mem_of_lookup_eq_some {m : List (String × ℤ)} {k : String} {v : ℤ}
    (h : List.lookup k m = some v) : (k, v) ∈ m := by
  obtain ⟨l₁, l₂, rfl, -⟩ := List.lookup_eq_some_iff.mp h
  exact List.mem_append.mpr (Or.inr (List.mem_cons_self _ _))

/-- C3 (amended): normalization is total — for every raw-scores input the
effective score mapping has exactly one entry per canonical indicator, in
rubric order, with no extra keys; every value is the default 3 or the score
extracted from some matched raw entry; and whenever every extractable raw
score lies in [1,5] so does every normalized value.  (Unqualified, the [1,5]
bound is false: the loop applies no range check — see the counterexample.) -/
theorem normalize_totality :
    ∀ raw : List (String × RawEntry),
      (normalizedScores raw).map Prod.fst = frameworkKeys ∧
      (∀ p ∈ normalizedScores raw,
        p.2 = 3 ∨ ∃ k e, (k, e) ∈ raw ∧
          match_score_key k frameworkKeys = some p.1 ∧
          extractEntry e = some p.2) ∧
      ((∀ k e, (k, e) ∈ raw → ∀ v, extractEntry e = some v → 1 ≤ v ∧ v ≤ 5) →
        ∀ p ∈ normalizedScores raw, 1 ≤ p.2 ∧ p.2 ≤ 5) := by
  intro raw
  have hkeys : (normalizedScores raw).map Prod.fst = frameworkKeys := by
    rw [normalizedScores, List.map_map]
    exact List.map_id _
  have hprov : ∀ p ∈ normalizedScores raw,
      p.2 = 3 ∨ ∃ k e, (k, e) ∈ raw ∧
        match_score_key k frameworkKeys = some p.1 ∧
        extractEntry e = some p.2 := by
    intro p hp
    rw [normalizedScores] at hp
    obtain ⟨n, hn, rfl⟩ := List.mem_map.mp hp
    cases hlk : List.lookup n (normalizeLoop raw) with
    | none => left; simp [hlk]
    | some v =>
      right
      have hmem : (n, v) ∈ normalizeLoop raw := mem_of_lookup_eq_some hlk
      rcases loop_mem raw [] (n, v) hmem with h | ⟨k, e, hke, hmk, hex⟩
      · exact absurd h (List.not_mem_nil _)
      · exact ⟨k, e, hke, hmk, hex⟩
  refine ⟨hkeys, hprov, ?_⟩
  intro hok p hp
  rcases hprov p hp with h3 | ⟨k, e, hke, _, hex⟩
  · rw [h3]
    exact ⟨by norm_num, by norm_num⟩
  · exact hok k e hke p.2 hex

/-- Witness for C3 on `rawSample` (fuzzy key, bogus key, malformed entry):
the fuzzy-matched Fatalities entry normalizes to 4, inside [1,5]. -/
theorem normalize_totality_witness : 1 ≤ (4 : ℤ) ∧ (4 : ℤ) ≤ 5 :=
  (normalize_totality rawSample).2.2
    (by
      intro k e hke v hex
      fin_cases hke
      · rw [show extractEntry (.obj (some (.str "4 (severe)"))) = some 4
              from by decide] at hex
        cases hex
        decide
      · rw [show extractEntry (.obj (some (.int 2))) = some 2
              from by decide] at hex
        cases hex
        decide
      · exact Option.noConfusion hex)
    ("1.2 Fatalities", 4) (by decide)

/-- C3 counterexample: an in-band raw score of 7 passes normalization
unchecked, so the output is not always within [1,5]. -/
theorem normalized_value_out_of_range :
    List.lookup "1.1 People Affected"
      (normalizedScores [("1.1 People Affected", .obj (some (.int 7)))])
      = some 7 ∧ ¬ ((7 : ℤ) ≤ 5) :=
  ⟨by decide, by decide⟩

/-- C5 (amended): for a matched entry the stored score is the first run of
decimal digits of `str(score)` (an integer in [1,5] passes through
unchanged); with no digits the entry is discarded and the indicator falls to
default 3; but no [1,5] range check is applied — an extracted integer outside
[1,5] is stored as-is ("7 (catastrophic)" stores 7). -/
theorem score_extraction_policy :
    extractEntry (.obj (some (.str "4 (severe)"))) = some 4 ∧
    extractEntry (.obj (some (.str "unknown"))) = none ∧
    (∀ n : ℤ, 1 ≤ n → n ≤ 5 → extractEntry (.obj (some (.int n))) = some n) ∧
    normalizeLoop [("1.2 Fatalities", .obj (some (.str "unknown")))] = [] ∧
    List.lookup "1.2 Fatalities"
      (normalizedScores [("1.2 Fatalities", .obj (some (.str "unknown")))])
      = some 3 ∧
    List.lookup "1.2 Fatalities"
      (normalizedScores
        [("1.2 Fatalities", .obj (some (.str "7 (catastrophic)")))])
      = some 7 := by
  refine ⟨by decide, by decide, ?_, by decide, by decide, by decide⟩
  intro n h1 h5
  interval_cases n <;> decide

/-- Witness for C5 at the in-range integer score 4. -/
theorem score_extraction_policy_witness :
    extractEntry (.obj (some (.int 4))) = some 4 :=
  score_extraction_policy.2.2.1 4 (by decide) (by decide)

/-- C5 counterexample: the claim says an extracted integer outside [1,5] is
discarded (default 3); instead "9 (massive)" is stored as 9. -/
theorem out_of_range_score_kept :
    List.lookup "2.3 Displacement"
      (normalizedScores [("2.3 Displacement", .obj (some (.str "9 (massive)")))])
      = some 9 ∧ ¬ ((9 : ℤ) ≤ 5) ∧ (9 : ℤ) ≠ 3 :=
  ⟨by decide, by decide, by decide⟩

/-- C7: key resolution — (1) a raw key equal to a canonical identifier
verbatim returns that identifier, taking precedence over any fuzzy match;
(2) otherwise the first identifier in rubric iteration order whose cleaned
form contains the cleaned raw key is returned; (3) otherwise the first
identifier whose lower-cased form contains the lower-cased raw key is
returned; (4) otherwise there is no match.  Moreover (5) any tier-3 hit is
already a tier-2 hit (dot-removal and stripping preserve substring
containment), so tier 3 can never fire after tier 2 failed on the same
list. -/
theorem matching_policy :
    (∀ (k : String) (keys : List String), k ∈ keys →
      match_score_key k keys = some k) ∧
    (∀ (k : String) (keys : List String) (fk : String), k ∉ keys →
      firstSuch (tier2Hit k) keys fk → match_score_key k keys = some fk) ∧
    (∀ (k : String) (keys : List String) (fk : String), k ∉ keys →
      (∀ y ∈ keys, tier2Hit k y = false) →
      firstSuch (tier3Hit k) keys fk → match_score_key k keys = some fk) ∧
    (∀ (k : String) (keys : List String), k ∉ keys →
      (∀ y ∈ keys, tier2Hit k y = false) →
      (∀ y ∈ keys, tier3Hit k y = false) →
      match_score_key k keys = none) ∧
    (∀ k fk : String, tier3Hit k fk = true → tier2Hit k fk = true) := by
  refine ⟨?_, ?_, ?_, ?_, ?_⟩
  · intro k keys hk
    simp [match_score_key, hk]
  · intro k keys fk hk h2
    have hf := find?_of_firstSuch h2
    simp [match_score_key, hk, hf]
  · intro k keys fk hk h2all h3
    have h2none : keys.find? (tier2Hit k) = none :=
      List.find?_eq_none.mpr (fun y hy => by simp [h2all y hy])
    have hf := find?_of_firstSuch h3
    simp [match_score_key, hk, h2none, hf]
  · intro k keys hk h2all h3all
    have h2none : keys.find? (tier2Hit k) = none :=
      List.find?_eq_none.mpr (fun y hy => by simp [h2all y hy])
    have h3none : keys.find? (tier3Hit k) = none :=
      List.find?_eq_none.mpr (fun y hy => by simp [h3all y hy])
    simp [match_score_key, hk, h2none, h3none]
  · intro k fk h3
    rw [show tier3Hit k fk
          = listContains (lowerStr k).data (lowerStr fk).data from rfl,
        listContains_iff] at h3
    rw [show tier2Hit k fk
          = listContains (cleanKey k).data (cleanFk fk).data from rfl,
        listContains_iff]
    have hfilter : (removeDots (lowerStr k)).data
        <:+: (removeDots (lowerStr fk)).data := by
      rw [data_removeDots, data_removeDots]
      exact h3.filter _
    exact infix_trans (stripStr_substr (removeDots (lowerStr k))) hfilter

/-- Witness for C7: an exact hit, a tier-2 first hit, a no-match, and a
tier-3-implies-tier-2 instance, on concrete keys. -/
theorem matching_policy_witness :
    match_score_key "1.2 Fatalities" ["1.1 People Affected", "1.2 Fatalities"]
      = some "1.2 Fatalities" ∧
    match_score_key "fatalities" ["1.1 People Affected", "1.2 Fatalities"]
      = some "1.2 Fatalities" ∧
    match_score_key "zzz" ["1.1 People Affected"] = none ∧
    tier2Hit "fatalities" "1.2 Fatalities" = true :=
  ⟨matching_policy.1 _ _ (by decide),
   matching_policy.2.1 _ _ "1.2 Fatalities" (by decide)
     ⟨["1.1 People Affected"], [], by decide, by decide, by decide⟩,
   matching_policy.2.2.2.1 _ _ (by decide) (by decide) (by decide),
   matching_policy.2.2.2.2 "fatalities" "1.2 Fatalities" (by decide)⟩

/-- C10: any raw key whose cleaned form is empty (the empty key, or keys of
dots and whitespace only) tier-2-matches the first canonical identifier,
"1.1 People Affected", and its score overwrites that indicator. -/
theorem empty_cleaned_key_matches_first :
    (∀ k : String, cleanKey k = "" →
      match_score_key k frameworkKeys = some "1.1 People Affected") ∧
    match_score_key "" frameworkKeys = some "1.1 People Affected" ∧
    List.lookup "1.1 People Affected"
      (normalizedScores [("", .obj (some (.int 5)))]) = some 5 := by
  refine ⟨?_, by decide, by decide⟩
  intro k hk
  have hfk : ∀ fk ∈ frameworkKeys, ¬ cleanKey fk = "" := by decide
  have hnot : k ∉ frameworkKeys := fun hmem => hfk k hmem hk
  have hhead : tier2Hit k "1.1 People Affected" = true := by
    rw [show tier2Hit k "1.1 People Affected"
          = strContains (cleanFk "1.1 People Affected") (cleanKey k) from rfl,
        hk]
    decide
  have hfind : frameworkKeys.find? (tier2Hit k) = some "1.1 People Affected" := by
    rw [show frameworkKeys = "1.1 People Affected" :: frameworkKeys.tail
          from rfl]
    exact List.find?_cons_of_pos _ hhead
  simp [match_score_key, hnot, hfind]

/-- Witness for C10 at the dots-and-spaces key " .. ". -/
theorem empty_cleaned_key_matches_first_witness :
    match_score_key " .. " frameworkKeys = some "1.1 People Affected" :=
  empty_cleaned_key_matches_first.1 " .. " (by decide)
